import Mathlib

set_option autoImplicit false

/-
Shallow embedding of the techtriage extension staging / conflict-detection /
merge engine (src/src/extensions/{manager,conflicts}.rs, src/src/database.rs,
src/src/models/common/mod.rs).

Modelling conventions:
- `semver::Version` is embedded as a major/minor/patch triple; the repository
  only constructs and compares versions (`Version::new`, `==`), never
  pre-release or build metadata.
- `HashSet<InventoryExtensionUniqueID>` is embedded as `Finset String`
  (unordered, deduplicated, decidable membership), and `extend` as `∪`.
- The SurrealDB store is embedded as in-memory lists of records, one list per
  table; `create` appends, `DELETE <id>` filters by primary key, and
  `SELECT <id>` is `List.find?` on the id.  The fan-out/fan-in concurrent
  upserts inside `Database::load_extension` are sequentialized in list order,
  matching the effectively-sequential administrative use documented in the
  source.
- `stop(code)` (src/src/main.rs) calls `std::process::exit(code)` directly;
  it is embedded as the `LoadResult.exitProcess` outcome of a run, as opposed
  to `LoadResult.ok`, a normal return.
- The repository snapshot mixes two revisions: `manager.rs` names the shared
  entity kind `device_classifications` while `database.rs`, `models/` and the
  tests name it `device_categories` and give devices an owner *set*.  The
  embedding follows the `database.rs`/`models/` revision, which is the one the
  cited merge/unload code paths compile against.
-/

namespace TechTriage

/-- Embedding of `semver::Version` (major, minor, patch). -/
structure SemVer where
  major : Nat
  minor : Nat
  patch : Nat
deriving DecidableEq, Repr

/-- Embedding of `InventoryExtensionMetadata` (src/src/models/common/mod.rs). -/
structure Metadata where
  id : String
  display_name : String
  version : SemVer
deriving DecidableEq, Repr

/-- Embedding of `DeviceManufacturer` (src/src/models/common/mod.rs). -/
structure DeviceManufacturer where
  id : String
  display_name : String
  extensions : Finset String
deriving DecidableEq

/-- Embedding of `DeviceCategory` (src/src/models/common/mod.rs). -/
structure DeviceCategory where
  id : String
  display_name : String
  extensions : Finset String
deriving DecidableEq

/-- Embedding of `Device` (src/src/models/common/mod.rs). -/
structure Device where
  id : String
  display_name : String
  manufacturer : String
  category : String
  extensions : Finset String
  primary_model_identifiers : List String
  extended_model_identifiers : List String
deriving DecidableEq

/-- Embedding of `InventoryExtension` (src/src/extensions/manager.rs; the
field `device_categories` is named `device_classifications` in the
`manager.rs` revision, see the header comment). -/
structure InventoryExtension where
  metadata : Metadata
  device_manufacturers : List DeviceManufacturer
  device_categories : List DeviceCategory
  devices : List Device
deriving DecidableEq

/-- Embedding of `DeviceManufacturer::merge` (src/src/models/common/mod.rs):
`self.extensions.extend(other.extensions)`. -/
def DeviceManufacturer.merge (self other : DeviceManufacturer) : DeviceManufacturer :=
  { self with extensions := self.extensions ∪ other.extensions }

/-- Embedding of `DeviceCategory::merge` (src/src/models/common/mod.rs). -/
def DeviceCategory.merge (self other : DeviceCategory) : DeviceCategory :=
  { self with extensions := self.extensions ∪ other.extensions }

/-- Embedding of `Device::merge` (src/src/models/common/mod.rs). -/
def Device.merge (self other : Device) : Device :=
  { self with extensions := self.extensions ∪ other.extensions }

/-- Embedding of `LoadConflict` (src/src/extensions/conflicts.rs). -/
structure LoadConflict where
  id : String
  same_version : Bool
deriving DecidableEq, Repr

/-- Embedding of `LoadConflict::should_reload` (src/src/extensions/conflicts.rs):
`!self.same_version`. -/
def LoadConflict.should_reload (self : LoadConflict) : Bool :=
  !self.same_version

/-- Embedding of `LoadConflict::new` (src/src/extensions/conflicts.rs).  The
Rust function scans `loaded_extensions` front to back for the first entry
whose `id` equals the staged extension's `id`; on a match it removes that
entry in place and returns the conflict.  The embedding returns the optional
conflict together with the updated list. -/
def LoadConflict.new (staged_extension : InventoryExtension) :
    List Metadata → Option LoadConflict × List Metadata
  | [] => (none, [])
  | loaded :: rest =>
    if loaded.id = staged_extension.metadata.id then
      (some { id := loaded.id,
              same_version := decide (staged_extension.metadata.version = loaded.version) },
       rest)
    else
      let r := LoadConflict.new staged_extension rest
      (r.1, loaded :: r.2)

/-- Embedding of the store contents behind `Database` (src/src/database.rs):
one list of records per table (`extensions`, `device_manufacturers`,
`device_categories`, `devices`). -/
structure Database where
  extensions : List Metadata
  device_manufacturers : List DeviceManufacturer
  device_categories : List DeviceCategory
  devices : List Device
deriving DecidableEq

/-- Embedding of `Database::list_extensions` (src/src/database.rs). -/
def Database.list_extensions (db : Database) : List Metadata :=
  db.extensions

/-- Embedding of `Database::get_device_manufacturer` (src/src/database.rs):
select by primary key. -/
def Database.get_device_manufacturer (db : Database) (id : String) :
    Option DeviceManufacturer :=
  db.device_manufacturers.find? (fun m => m.id == id)

/-- Embedding of `Database::get_device_category` (src/src/database.rs). -/
def Database.get_device_category (db : Database) (id : String) :
    Option DeviceCategory :=
  db.device_categories.find? (fun c => c.id == id)

/-- Embedding of `Database::get_device` (src/src/database.rs). -/
def Database.get_device (db : Database) (id : String) : Option Device :=
  db.devices.find? (fun d => d.id == id)

/-- Embedding of `Database::remove_device_manufacturer` (src/src/database.rs):
`DELETE device_manufacturers:<id>` deletes the record with that primary key. -/
def Database.remove_device_manufacturer (db : Database) (id : String) : Database :=
  { db with device_manufacturers :=
      db.device_manufacturers.filter (fun m => m.id != id) }

/-- Embedding of `Database::remove_device_category` (src/src/database.rs). -/
def Database.remove_device_category (db : Database) (id : String) : Database :=
  { db with device_categories :=
      db.device_categories.filter (fun c => c.id != id) }

/-- Embedding of `Database::remove_device` (src/src/database.rs). -/
def Database.remove_device (db : Database) (id : String) : Database :=
  { db with devices := db.devices.filter (fun d => d.id != id) }

/-- Embedding of `Database::add_device_manufacturer` (src/src/database.rs):
if a record with the same id exists, merge the existing owners into the new
record, delete the old record, then insert the merged record; otherwise
insert the new record as-is (`create` appends). -/
def Database.add_device_manufacturer (db : Database)
    (manufacturer : DeviceManufacturer) : Database :=
  match db.get_device_manufacturer manufacturer.id with
  | some existing_record =>
    let merged := manufacturer.merge existing_record
    let db2 := db.remove_device_manufacturer merged.id
    { db2 with device_manufacturers := db2.device_manufacturers ++ [merged] }
  | none =>
    { db with device_manufacturers := db.device_manufacturers ++ [manufacturer] }

/-- Embedding of `Database::add_device_category` (src/src/database.rs). -/
def Database.add_device_category (db : Database) (category : DeviceCategory) :
    Database :=
  match db.get_device_category category.id with
  | some existing_record =>
    let merged := category.merge existing_record
    let db2 := db.remove_device_category merged.id
    { db2 with device_categories := db2.device_categories ++ [merged] }
  | none =>
    { db with device_categories := db.device_categories ++ [category] }

/-- Embedding of `Database::add_device` (src/src/database.rs). -/
def Database.add_device (db : Database) (device : Device) : Database :=
  match db.get_device device.id with
  | some existing_record =>
    let merged := device.merge existing_record
    let db2 := db.remove_device merged.id
    { db2 with devices := db2.devices ++ [merged] }
  | none =>
    { db with devices := db.devices ++ [device] }

/-- Embedding of `Database::load_extension` (src/src/database.rs): create the
extension metadata record, then upsert the categories, then the
manufacturers, then the devices (each fan-out/fan-in batch sequentialized in
list order). -/
def Database.load_extension (db : Database) (extension : InventoryExtension) :
    Database :=
  let db1 := { db with extensions := db.extensions ++ [extension.metadata] }
  let db2 := extension.device_categories.foldl Database.add_device_category db1
  let db3 := extension.device_manufacturers.foldl Database.add_device_manufacturer db2
  extension.devices.foldl Database.add_device db3

/-- Embedding of `Database::unload_extension` (src/src/database.rs).  The
multi-statement query first deletes, in each entity table, every record whose
ownership set is exactly the singleton of the unloaded id, then deletes the
extension metadata record with that id, then removes the id from the
ownership set of every remaining entity record. -/
def Database.unload_extension (db : Database) (extension_id : String) : Database :=
  { extensions := db.extensions.filter (fun m => m.id != extension_id),
    device_manufacturers :=
      (db.device_manufacturers.filter
        (fun m => !(decide (m.extensions = {extension_id})))).map
        (fun m => { m with extensions := m.extensions.erase extension_id }),
    device_categories :=
      (db.device_categories.filter
        (fun c => !(decide (c.extensions = {extension_id})))).map
        (fun c => { c with extensions := c.extensions.erase extension_id }),
    devices :=
      (db.devices.filter
        (fun d => !(decide (d.extensions = {extension_id})))).map
        (fun d => { d with extensions := d.extensions.erase extension_id }) }

/-- Embedding of `Database::reload_extension` (src/src/database.rs): unload
the extension with the given extension's id, then load the given extension. -/
def Database.reload_extension (db : Database) (extension : InventoryExtension) :
    Database :=
  (db.unload_extension extension.metadata.id).load_extension extension

/-- Modelled from the spec: `StageConflict` is referenced by
`ExtensionManager::stage_extension` and the tests, but its definition is not
under src/.  Per the spec it is a record carrying extension metadata; which
metadata ends up inside is decided by the caller in src/. -/
structure StageConflict where
  metadata : Metadata
deriving DecidableEq, Repr

/-- Modelled from the spec: the `StageConflict` constructor wraps the
metadata it is given (called in src/src/extensions/manager.rs as
`StageConflict::new(&extension.metadata)`). -/
def StageConflict.new (metadata : Metadata) : StageConflict :=
  { metadata := metadata }

/-- Embedding of `HandlerMode` (src/src/extensions/manager.rs). -/
inductive HandlerMode where
  | Manual
  | Auto
  | ForceReload
deriving DecidableEq, Repr

/-- Embedding of `ExtensionManager` (src/src/extensions/manager.rs). -/
structure ExtensionManager where
  staged_extensions : List InventoryExtension
  handler_mode : HandlerMode
deriving DecidableEq

/-- Embedding of the scan inside `ExtensionManager::already_contains`
(src/src/extensions/manager.rs): front-to-back search for a staged extension
with the given id. -/
def staged_list_contains_id : List InventoryExtension → String → Bool
  | [], _ => false
  | staged :: rest, extension_id =>
    if extension_id = staged.metadata.id then true
    else staged_list_contains_id rest extension_id

/-- Embedding of `ExtensionManager::already_contains`
(src/src/extensions/manager.rs). -/
def ExtensionManager.already_contains (self : ExtensionManager)
    (extension : InventoryExtension) : Bool :=
  staged_list_contains_id self.staged_extensions extension.metadata.id

/-- Embedding of `ExtensionManager::stage_extension`
(src/src/extensions/manager.rs): push the extension unless one with the same
id is already staged, in which case return a `StageConflict` built from the
incoming extension's metadata and leave the staged set unchanged. -/
def ExtensionManager.stage_extension (self : ExtensionManager)
    (extension : InventoryExtension) : ExtensionManager × Option StageConflict :=
  if !(self.already_contains extension) then
    ({ self with staged_extensions := self.staged_extensions ++ [extension] }, none)
  else
    (self, some (StageConflict.new extension.metadata))

/-- Embedding of the staging loops (`ExtensionManager::new` and the test
helper `ExtensionManager::with_extensions`): present each extension in turn
to `stage_extension`, collecting the conflicts; a rejection does not stop the
loop. -/
def ExtensionManager.stage_all (self : ExtensionManager) :
    List InventoryExtension → ExtensionManager × List StageConflict
  | [] => (self, [])
  | extension :: rest =>
    let r1 := self.stage_extension extension
    let r2 := r1.1.stage_all rest
    (r2.1, r1.2.toList ++ r2.2)

/-- A store operation issued by `ExtensionManager::load_extensions`: either
`Database::load_extension` on a staged extension or
`Database::unload_extension` on an extension id (a reload is the trace
`[unload id, load extension]`, matching `Database::reload_extension`). -/
inductive DbOp where
  | load (extension : InventoryExtension)
  | unload (extension_id : String)
deriving DecidableEq

/-- Interpretation of a trace of store operations against the store. -/
def Database.run_ops (db : Database) (ops : List DbOp) : Database :=
  ops.foldl
    (fun d op =>
      match op with
      | DbOp.load extension => d.load_extension extension
      | DbOp.unload extension_id => d.unload_extension extension_id)
    db

/-- Embedding of one iteration of the loop in
`ExtensionManager::load_extensions` (src/src/extensions/manager.rs) for one
staged extension: returns the store operations issued, the conflicts pushed,
the contribution to the `should_crash` flag, and the updated loaded-metadata
list.  With no conflict the extension is loaded; with a conflict, Manual mode
issues nothing and raises the crash flag exactly when the conflict calls for
a reload, Auto mode reloads exactly when the conflict calls for a reload, and
ForceReload mode always reloads. -/
def load_extensions_step (mode : HandlerMode) (staged : InventoryExtension)
    (loaded : List Metadata) :
    List DbOp × List LoadConflict × Bool × List Metadata :=
  let r := LoadConflict.new staged loaded
  match r.1 with
  | none => ([DbOp.load staged], [], false, r.2)
  | some conflict =>
    match mode with
    | HandlerMode.Manual =>
      ([], [conflict], conflict.should_reload, r.2)
    | HandlerMode.Auto =>
      ((if conflict.should_reload then
          [DbOp.unload staged.metadata.id, DbOp.load staged]
        else []),
       [conflict], false, r.2)
    | HandlerMode.ForceReload =>
      ([DbOp.unload staged.metadata.id, DbOp.load staged], [conflict], false, r.2)

/-- Embedding of the full loop of `ExtensionManager::load_extensions`:
processes every staged extension in order, threading the loaded-metadata
list and accumulating operations, conflicts, and the crash flag. -/
def load_extensions_loop (mode : HandlerMode) :
    List InventoryExtension → List Metadata → List DbOp × List LoadConflict × Bool
  | [], _ => ([], [], false)
  | staged :: rest, loaded =>
    let s := load_extensions_step mode staged loaded
    let r := load_extensions_loop mode rest s.2.2.2
    (s.1 ++ r.1, s.2.1 ++ r.2.1, s.2.2.1 || r.2.2)

/-- Outcome of a `load_extensions` run.  `ok` is the normal
`Ok(conflicts)` return; `exitProcess` is `stop(code)` (src/src/main.rs),
which calls `std::process::exit(code)` directly — an uncontrolled
termination of the whole process, not a panic or an error return that a test
harness could report as a failure. -/
inductive LoadResult where
  | ok (conflicts : List LoadConflict)
  | exitProcess (code : Nat)
deriving DecidableEq, Repr

/-- Embedding of `ExtensionManager::load_extensions`
(src/src/extensions/manager.rs): classify and handle every staged extension
against the store's loaded metadata, and afterwards either return the
conflicts or, if the crash flag was raised, exit the process with status 5. -/
def ExtensionManager.load_extensions (self : ExtensionManager) (db : Database) :
    List DbOp × LoadResult :=
  let r := load_extensions_loop self.handler_mode self.staged_extensions
    db.list_extensions
  (r.1, if r.2.2 then LoadResult.exitProcess 5 else LoadResult.ok r.2.1)

/-- Modelled from the spec: the store rejects deletion of reserved
identifiers.  The builtin extension id is "builtin"
(`InventoryExtension::builtin`, src/src/extensions/manager.rs); the
store-side guard is set up by `Database::add_builtins`, which is called from
src/src/main.rs and the tests but is not itself under src/. -/
def reserved_extension_ids : Finset String := {"builtin"}

/-- Modelled from the spec: unloading checked against the reserved-identifier
guard.  On a protected id the operation fails with an error and the store is
returned unchanged (no statement of the unload query is applied); otherwise
it behaves as `Database::unload_extension`. -/
def Database.unload_extension_checked (db : Database) (extension_id : String) :
    Database × Option String :=
  if extension_id ∈ reserved_extension_ids then
    (db, some "cannot delete reserved record")
  else
    (db.unload_extension extension_id, none)

/-- Fixture: metadata of a loaded extension, after the tests
(`Extension::test`). -/
def test_metadata_1 : Metadata :=
  { id := "test_1", display_name := "Test Extension 1", version := ⟨1, 0, 0⟩ }

/-- Fixture: a staged extension with the same id and version as
`test_metadata_1` but different contents (the `test_pair_same_metadata`
scenario). -/
def ext_dup : InventoryExtension :=
  { metadata := { id := "test_1", display_name := "Test Extension 1",
                  version := ⟨1, 0, 0⟩ },
    device_manufacturers := [], device_categories := [], devices := [] }

/-- Fixture: a staged extension with the same id as `test_metadata_1` but a
different version (the `test_pair_different_metadata` scenario). -/
def ext_new : InventoryExtension :=
  { metadata := { id := "test_1", display_name := "Test Extension 1",
                  version := ⟨1, 0, 1⟩ },
    device_manufacturers := [], device_categories := [], devices := [] }

/-- Fixture: a staged extension whose id conflicts with nothing loaded. -/
def ext_fresh : InventoryExtension :=
  { metadata := { id := "test_2", display_name := "Test Extension 2",
                  version := ⟨1, 0, 0⟩ },
    device_manufacturers := [], device_categories := [], devices := [] }

/-- Fixture: a store holding exactly the loaded metadata `test_metadata_1`. -/
def db_one : Database :=
  { extensions := [test_metadata_1], device_manufacturers := [],
    device_categories := [], devices := [] }

/-- Fixture: an empty store. -/
def db_empty : Database :=
  { extensions := [], device_manufacturers := [], device_categories := [],
    devices := [] }

/-- Fixture: a manufacturer contributed by extension e1. -/
def mf_a : DeviceManufacturer :=
  { id := "apple", display_name := "Apple", extensions := {"e1"} }

/-- Fixture: the same manufacturer id contributed by extension e2 with a
different display name. -/
def mf_b : DeviceManufacturer :=
  { id := "apple", display_name := "Apple Inc", extensions := {"e2"} }

/-- Fixture: a store already holding `mf_a`. -/
def db_mf_a : Database :=
  { extensions := [], device_manufacturers := [mf_a], device_categories := [],
    devices := [] }

/-- Fixture: an extension staged first in the duplicate-staging scenario. -/
def ext_a : InventoryExtension :=
  { metadata := { id := "ext_x", display_name := "Alpha", version := ⟨1, 0, 0⟩ },
    device_manufacturers := [], device_categories := [], devices := [] }

/-- Fixture: a second extension with the same id as `ext_a` but different
display name and version. -/
def ext_b : InventoryExtension :=
  { metadata := { id := "ext_x", display_name := "Beta", version := ⟨2, 0, 0⟩ },
    device_manufacturers := [], device_categories := [], devices := [] }

/-- Fixture: a manager that has already staged `ext_a`. -/
def mgr_a : ExtensionManager :=
  { staged_extensions := [ext_a], handler_mode := HandlerMode.Manual }

/-- Characterization of `LoadConflict.new`: either no loaded entry matches the
staged id and the list is returned untouched with no conflict, or the list
splits around the first matching entry, that entry alone is removed, and the
conflict records the shared id and version equality. -/
theorem LoadConflict.new_spec (ext : InventoryExtension) (ms : List Metadata) :
    ((LoadConflict.new ext ms).1 = none ∧ (LoadConflict.new ext ms).2 = ms ∧
      ∀ m ∈ ms, m.id ≠ ext.metadata.id) ∨
    (∃ pre m post, ms = pre ++ m :: post ∧
      (∀ x ∈ pre, x.id ≠ ext.metadata.id) ∧
      m.id = ext.metadata.id ∧
      (LoadConflict.new ext ms).1 =
        some { id := m.id,
               same_version := decide (ext.metadata.version = m.version) } ∧
      (LoadConflict.new ext ms).2 = pre ++ post) := by
  induction ms with
  | nil => exact Or.inl ⟨rfl, rfl, by simp⟩
  | cons hd tl ih =>
    by_cases hhd : hd.id = ext.metadata.id
    · refine Or.inr ⟨[], hd, tl, by simp, by simp, hhd, ?_, ?_⟩
      · simp [LoadConflict.new, hhd]
      · simp [LoadConflict.new, hhd]
    · rcases ih with ⟨h1, h2, h3⟩ | ⟨pre, m, post, hsplit, hpre, hm, hc, hout⟩
      · refine Or.inl ⟨?_, ?_, ?_⟩
        · simp [LoadConflict.new, hhd, h1]
        · simp [LoadConflict.new, hhd, h2]
        · intro x hx
          rcases List.mem_cons.mp hx with hx | hx
          · exact hx ▸ hhd
          · exact h3 x hx
      · refine Or.inr ⟨hd :: pre, m, post, by simp [hsplit], ?_, hm, ?_, ?_⟩
        · intro x hx
          rcases List.mem_cons.mp hx with hx | hx
          · exact hx ▸ hhd
          · exact hpre x hx
        · simp [LoadConflict.new, hhd, hc]
        · simp [LoadConflict.new, hhd, hout]

/-- Claim C3 (confirmed): the conflict classifier returns a verdict if and
only if the loaded-metadata collection contains an entry whose id equals the
staged extension's id; on a match it removes exactly that (first matching)
entry and the verdict carries the shared id and a flag that is true exactly
when the two semantic versions are equal; on no match it returns none with
the collection untouched. -/
theorem c3_classify_verdict (ext : InventoryExtension) (ms : List Metadata) :
    ((LoadConflict.new ext ms).1.isSome ↔ ∃ m ∈ ms, m.id = ext.metadata.id) ∧
    ((LoadConflict.new ext ms).1 = none → (LoadConflict.new ext ms).2 = ms) ∧
    (∀ c, (LoadConflict.new ext ms).1 = some c →
      ∃ pre m post, ms = pre ++ m :: post ∧
        (∀ x ∈ pre, x.id ≠ ext.metadata.id) ∧
        m.id = ext.metadata.id ∧
        (LoadConflict.new ext ms).2 = pre ++ post ∧
        c.id = ext.metadata.id ∧
        (c.same_version = true ↔ ext.metadata.version = m.version)) := by
  rcases LoadConflict.new_spec ext ms with ⟨h1, h2, h3⟩ |
    ⟨pre, m, post, hsplit, hpre, hm, hc, hout⟩
  · refine ⟨?_, fun _ => h2, ?_⟩
    · rw [h1]
      simp only [Option.isSome_none, Bool.false_eq_true, false_iff]
      rintro ⟨m, hmem, hid⟩
      exact h3 m hmem hid
    · intro c hcc
      rw [h1] at hcc
      exact absurd hcc (by simp)
  · refine ⟨?_, ?_, ?_⟩
    · rw [hc]
      simp only [Option.isSome_some, true_iff]
      exact ⟨m, by simp [hsplit], hm⟩
    · intro hnone
      rw [hc] at hnone
      exact absurd hnone (by simp)
    · intro c hcc
      rw [hc] at hcc
      obtain rfl := Option.some.inj hcc
      refine ⟨pre, m, post, hsplit, hpre, hm, hout, hm, ?_⟩
      simp
/-- Claim C10 (confirmed): when the classifier returns no verdict the
loaded-metadata collection is left exactly as given, and on any call at most
one entry is removed: the output collection is the input or the input with
exactly one entry deleted. -/
theorem c10_classifier_frame (ext : InventoryExtension) (ms : List Metadata) :
    ((LoadConflict.new ext ms).1 = none → (LoadConflict.new ext ms).2 = ms) ∧
    ((LoadConflict.new ext ms).2 = ms ∨
      ∃ pre m post, ms = pre ++ m :: post ∧
        (LoadConflict.new ext ms).2 = pre ++ post) := by
  rcases LoadConflict.new_spec ext ms with ⟨h1, h2, _⟩ |
    ⟨pre, m, post, hsplit, _, _, hc, hout⟩
  · exact ⟨fun _ => h2, Or.inl h2⟩
  · refine ⟨fun hnone => ?_, Or.inr ⟨pre, m, post, hsplit, hout⟩⟩
    rw [hc] at hnone
    exact absurd hnone (by simp)

/-- Witness for C10 at a concrete non-matching input. -/
theorem c10_classifier_frame_witness :
    (LoadConflict.new ext_fresh [test_metadata_1]).1 = none ∧
    (LoadConflict.new ext_fresh [test_metadata_1]).2 = [test_metadata_1] :=
  ⟨by decide, (c10_classifier_frame ext_fresh [test_metadata_1]).1 (by decide)⟩

/-- Claim C2 (confirmed): on an entity upsert, if no persisted record with
the same id exists the new entity is inserted as-is; if one exists, the
resulting record has the new entity's fields except the owners, which are the
union of the existing record's owners and the new entity's owners, and the
old record is deleted before the merged record is inserted. -/
theorem c2_upsert_merges_owners (db : Database) (m : DeviceManufacturer) :
    (db.get_device_manufacturer m.id = none →
      db.add_device_manufacturer m =
        { db with device_manufacturers := db.device_manufacturers ++ [m] }) ∧
    (∀ existing, db.get_device_manufacturer m.id = some existing →
      db.add_device_manufacturer m =
        { db with device_manufacturers :=
            (db.remove_device_manufacturer m.id).device_manufacturers ++
              [{ id := m.id, display_name := m.display_name,
                 extensions := existing.extensions ∪ m.extensions }] }) := by
  constructor
  · intro h
    simp [Database.add_device_manufacturer, h]
  · intro existing h
    simp only [Database.add_device_manufacturer, h, DeviceManufacturer.merge,
      Database.remove_device_manufacturer]
    rw [Finset.union_comm]

/-- Witness for C2: upserting `mf_b` into a store holding `mf_a` merges the
owner sets. -/
theorem c2_upsert_merges_owners_witness :
    db_mf_a.get_device_manufacturer mf_b.id = some mf_a ∧
    db_mf_a.add_device_manufacturer mf_b =
      { db_mf_a with device_manufacturers :=
          (db_mf_a.remove_device_manufacturer mf_b.id).device_manufacturers ++
            [{ id := mf_b.id, display_name := mf_b.display_name,
               extensions := mf_a.extensions ∪ mf_b.extensions }] } :=
  ⟨by decide, (c2_upsert_merges_owners db_mf_a mf_b).2 mf_a (by decide)⟩

/-- Helper: the first upsert of a manufacturer whose id is absent from the
store appends it, and a second upsert with the same id then merges into it. -/
theorem add_fresh_then_same (db : Database) (ma mb : DeviceManufacturer)
    (hid : mb.id = ma.id)
    (hdb : ∀ m ∈ db.device_manufacturers, m.id ≠ ma.id) :
    ((db.add_device_manufacturer ma).add_device_manufacturer
        mb).device_manufacturers =
      db.device_manufacturers ++
        [{ mb with extensions := mb.extensions ∪ ma.extensions }] := by
  have hget1 : db.get_device_manufacturer ma.id = none := by
    simp only [Database.get_device_manufacturer, List.find?_eq_none]
    intro x hx
    simpa using hdb x hx
  have hnone : db.device_manufacturers.find? (fun m => m.id == mb.id) = none := by
    simp only [List.find?_eq_none]
    intro x hx
    simpa [hid] using hdb x hx
  set db1 := db.add_device_manufacturer ma with hdb1
  have hstep1 : db1.device_manufacturers = db.device_manufacturers ++ [ma] := by
    simp [hdb1, Database.add_device_manufacturer, hget1]
  have hget2 : db1.get_device_manufacturer mb.id = some ma := by
    simp only [Database.get_device_manufacturer, hstep1, List.find?_append, hnone,
      Option.none_or]
    simp [List.find?, hid]
  simp only [Database.add_device_manufacturer, hget2, DeviceManufacturer.merge,
    Database.remove_device_manufacturer, hstep1, List.filter_append]
  have hself : db.device_manufacturers.filter (fun m => m.id != mb.id) =
      db.device_manufacturers := by
    rw [List.filter_eq_self]
    intro x hx
    simpa [hid] using hdb x hx
  simp only [hself, hid]
  simp
  exact fun a ha => hdb a ha

/-- Claim C7 (confirmed): two distinct extensions each contributing a
manufacturer with the same entity id: loading them in either order into a
store with no record of that id leaves exactly one manufacturer record with
that id, whose owner set is the union of the two extension ids — the
ownership set is independent of the load order. -/
theorem c7_shared_owner_union (db : Database) (eid n1 n2 e1 e2 : String)
    (_hne : e1 ≠ e2)
    (hdb : ∀ m ∈ db.device_manufacturers, m.id ≠ eid) :
    ((db.add_device_manufacturer ⟨eid, n1, {e1}⟩).add_device_manufacturer
        ⟨eid, n2, {e2}⟩).device_manufacturers.filter (fun m => m.id == eid) =
      [⟨eid, n2, {e1} ∪ {e2}⟩] ∧
    ((db.add_device_manufacturer ⟨eid, n2, {e2}⟩).add_device_manufacturer
        ⟨eid, n1, {e1}⟩).device_manufacturers.filter (fun m => m.id == eid) =
      [⟨eid, n1, {e1} ∪ {e2}⟩] := by
  have hnomatch : db.device_manufacturers.filter (fun m => m.id == eid) = [] := by
    simp only [List.filter_eq_nil_iff]
    intro x hx
    simpa using hdb x hx
  constructor
  · rw [add_fresh_then_same db ⟨eid, n1, {e1}⟩ ⟨eid, n2, {e2}⟩ rfl hdb]
    simp only [List.filter_append, hnomatch]
    simp [Finset.union_comm]
  · rw [add_fresh_then_same db ⟨eid, n2, {e2}⟩ ⟨eid, n1, {e1}⟩ rfl hdb]
    simp only [List.filter_append, hnomatch]
    simp

/-- Witness for C7 on an empty store with extensions e1 and e2 sharing the
manufacturer id apple. -/
theorem c7_shared_owner_union_witness :
    ("e1" : String) ≠ "e2" ∧
    ((db_empty.add_device_manufacturer ⟨"apple", "Apple", {"e1"}⟩).add_device_manufacturer
        ⟨"apple", "Apple Inc", {"e2"}⟩).device_manufacturers.filter
        (fun m => m.id == "apple") =
      [⟨"apple", "Apple Inc", {"e1"} ∪ {"e2"}⟩] :=
  ⟨by decide,
    (c7_shared_owner_union db_empty "apple" "Apple" "Apple Inc" "e1" "e2"
      (by decide)
      (fun m hm => absurd hm (List.not_mem_nil m))).1⟩

/-- Claim C5 (confirmed): unloading an extension id deletes every shared
entity (manufacturer, category) solely owned by that id, removes the id from
the owner set of every remaining shared entity while leaving its other fields
unchanged, and deletes the extension's metadata record; afterwards no
remaining shared entity lists the id as an owner. -/
theorem c5_unload_effects (db : Database) (eid : String) :
    (∀ m, m ∈ (db.unload_extension eid).device_manufacturers ↔
      ∃ m0, m0 ∈ db.device_manufacturers ∧ m0.extensions ≠ {eid} ∧
        m = { m0 with extensions := m0.extensions.erase eid }) ∧
    (∀ c, c ∈ (db.unload_extension eid).device_categories ↔
      ∃ c0, c0 ∈ db.device_categories ∧ c0.extensions ≠ {eid} ∧
        c = { c0 with extensions := c0.extensions.erase eid }) ∧
    (∀ md, md ∈ (db.unload_extension eid).extensions ↔
      md ∈ db.extensions ∧ md.id ≠ eid) ∧
    (∀ m, m ∈ (db.unload_extension eid).device_manufacturers →
      eid ∉ m.extensions) ∧
    (∀ c, c ∈ (db.unload_extension eid).device_categories →
      eid ∉ c.extensions) := by
  refine ⟨?_, ?_, ?_, ?_, ?_⟩
  · intro m
    simp only [Database.unload_extension, List.mem_map, List.mem_filter,
      Bool.not_eq_eq_eq_not, Bool.not_true, decide_eq_false_iff_not]
    constructor
    · rintro ⟨m0, ⟨hm0, hne⟩, rfl⟩
      exact ⟨m0, hm0, hne, rfl⟩
    · rintro ⟨m0, hm0, hne, rfl⟩
      exact ⟨m0, ⟨hm0, hne⟩, rfl⟩
  · intro c
    simp only [Database.unload_extension, List.mem_map, List.mem_filter,
      Bool.not_eq_eq_eq_not, Bool.not_true, decide_eq_false_iff_not]
    constructor
    · rintro ⟨c0, ⟨hc0, hne⟩, rfl⟩
      exact ⟨c0, hc0, hne, rfl⟩
    · rintro ⟨c0, hc0, hne, rfl⟩
      exact ⟨c0, ⟨hc0, hne⟩, rfl⟩
  · intro md
    simp [Database.unload_extension, List.mem_filter]
  · intro m hm
    simp only [Database.unload_extension, List.mem_map, List.mem_filter] at hm
    rcases hm with ⟨m0, _, rfl⟩
    exact Finset.not_mem_erase eid m0.extensions
  · intro c hc
    simp only [Database.unload_extension, List.mem_map, List.mem_filter] at hc
    rcases hc with ⟨c0, _, rfl⟩
    exact Finset.not_mem_erase eid c0.extensions

/-- Witness for C5: the extension metadata record is gone after the unload
and a surviving shared entity no longer lists the unloaded owner. -/
theorem c5_unload_effects_witness :
    (test_metadata_1 ∈ (db_one.unload_extension "test_1").extensions ↔
      test_metadata_1 ∈ db_one.extensions ∧ test_metadata_1.id ≠ "test_1") :=
  (c5_unload_effects db_one "test_1").2.2.1 test_metadata_1

/-- Claim C8 (confirmed, modelled from the spec): attempting to unload a
protected/builtin extension id fails with an error and returns the store
entirely unchanged. -/
theorem c8_protected_unload_rejected (db : Database) (eid : String)
    (h : eid ∈ reserved_extension_ids) :
    db.unload_extension_checked eid = (db, some "cannot delete reserved record") := by
  simp [Database.unload_extension_checked, h]

/-- Witness for C8 at the builtin id against a non-empty store. -/
theorem c8_protected_unload_rejected_witness :
    ("builtin" ∈ reserved_extension_ids) ∧
    db_one.unload_extension_checked "builtin" =
      (db_one, some "cannot delete reserved record") :=
  ⟨by decide, c8_protected_unload_rejected db_one "builtin" (by decide)⟩

/-- Claim C4 (confirmed): a staged extension with no conflict verdict is
loaded under every mode; under Auto a same-version verdict issues no store
operation and a different-version verdict issues unload-then-load; under
ForceReload every verdict issues unload-then-load; and the unload-then-load
trace applied to a store is exactly `Database::reload_extension`. -/
theorem c4_policy_table (staged : InventoryExtension) (loaded : List Metadata) :
    ((LoadConflict.new staged loaded).1 = none →
      ∀ mode, (load_extensions_step mode staged loaded).1 = [DbOp.load staged]) ∧
    (∀ c, (LoadConflict.new staged loaded).1 = some c →
      (c.same_version = true →
        (load_extensions_step HandlerMode.Auto staged loaded).1 = []) ∧
      (c.same_version = false →
        (load_extensions_step HandlerMode.Auto staged loaded).1 =
          [DbOp.unload staged.metadata.id, DbOp.load staged]) ∧
      (load_extensions_step HandlerMode.ForceReload staged loaded).1 =
        [DbOp.unload staged.metadata.id, DbOp.load staged]) ∧
    (∀ (db : Database) (extension : InventoryExtension),
      db.run_ops [DbOp.unload extension.metadata.id, DbOp.load extension] =
        db.reload_extension extension) := by
  refine ⟨?_, ?_, ?_⟩
  · intro h mode
    cases mode <;> simp [load_extensions_step, h]
  · intro c h
    refine ⟨?_, ?_, ?_⟩
    · intro hv
      simp [load_extensions_step, h, LoadConflict.should_reload, hv]
    · intro hv
      simp [load_extensions_step, h, LoadConflict.should_reload, hv]
    · simp [load_extensions_step, h]
  · intro db extension
    simp [Database.run_ops, Database.reload_extension]

/-- Witness for C4: a version-change conflict under ForceReload issues the
unload-then-load trace. -/
theorem c4_policy_table_witness :
    (LoadConflict.new ext_new [test_metadata_1]).1 =
      some { id := "test_1", same_version := false } ∧
    (load_extensions_step HandlerMode.ForceReload ext_new [test_metadata_1]).1 =
      [DbOp.unload "test_1", DbOp.load ext_new] :=
  ⟨by decide,
    ((c4_policy_table ext_new [test_metadata_1]).2.1
      { id := "test_1", same_version := false } (by decide)).2.2⟩

/-- Counterexample to claim C1: under Manual mode a staged extension whose
conflict verdict has the same version as the loaded extension is skipped and
its conflict recorded, but the crash flag stays false and the run returns
normally instead of terminating the process with a non-zero status. -/
theorem c1_counterexample :
    load_extensions_loop HandlerMode.Manual [ext_dup] db_one.list_extensions =
      ([], [{ id := "test_1", same_version := true }], false) ∧
    ExtensionManager.load_extensions ⟨[ext_dup], HandlerMode.Manual⟩ db_one =
      ([], LoadResult.ok [{ id := "test_1", same_version := true }]) ∧
    LoadResult.ok [{ id := "test_1", same_version := true }] ≠
      LoadResult.exitProcess 5 := by decide

/-- Claim C1 as amended: under Manual mode a staged extension whose conflict
verdict has equal versions is skipped (neither loaded nor reloaded) and the
conflict is recorded, but it is not flagged fatal: the crash flag stays
false, and a Manual run whose only staged extension produces such a verdict
completes normally; the distinct non-zero exit is reserved for verdicts with
differing versions. -/
theorem c1_manual_same_version_skip (staged : InventoryExtension)
    (loaded : List Metadata) (c : LoadConflict)
    (h : (LoadConflict.new staged loaded).1 = some c)
    (hv : c.same_version = true) :
    load_extensions_step HandlerMode.Manual staged loaded =
      ([], [c], false, (LoadConflict.new staged loaded).2) ∧
    (∀ db : Database, db.extensions = loaded →
      ExtensionManager.load_extensions ⟨[staged], HandlerMode.Manual⟩ db =
        ([], LoadResult.ok [c])) := by
  have hstep : load_extensions_step HandlerMode.Manual staged loaded =
      ([], [c], false, (LoadConflict.new staged loaded).2) := by
    simp [load_extensions_step, h, LoadConflict.should_reload, hv]
  refine ⟨hstep, ?_⟩
  intro db hdb
  simp [ExtensionManager.load_extensions, Database.list_extensions, hdb,
    load_extensions_loop, hstep]

/-- Witness for the amended C1 at the duplicate-same-version fixture. -/
theorem c1_manual_same_version_skip_witness :
    (LoadConflict.new ext_dup [test_metadata_1]).1 =
      some { id := "test_1", same_version := true } ∧
    load_extensions_step HandlerMode.Manual ext_dup [test_metadata_1] =
      ([], [{ id := "test_1", same_version := true }], false,
        (LoadConflict.new ext_dup [test_metadata_1]).2) :=
  ⟨by decide,
    (c1_manual_same_version_skip ext_dup [test_metadata_1]
      { id := "test_1", same_version := true } (by decide) rfl).1⟩

/-- Claim C6: under Manual mode with a differing-version conflict the loop
does continue through every remaining staged extension (the fresh sibling is
loaded, the conflict is surfaced, no reload is issued) and only after the
pass does the run end with status 5 — but that ending is
`LoadResult.exitProcess`, the direct `std::process::exit(5)` of `stop`,
an uncontrolled process exit rather than the reported failure the claim (and
the repository's own `#[should_panic]` test `different_version_crash`)
requires. -/
theorem c6_manual_conflict_exit :
    load_extensions_loop HandlerMode.Manual [ext_new, ext_fresh]
      db_one.list_extensions =
      ([DbOp.load ext_fresh], [{ id := "test_1", same_version := false }], true) ∧
    ExtensionManager.load_extensions ⟨[ext_new, ext_fresh], HandlerMode.Manual⟩
      db_one = ([DbOp.load ext_fresh], LoadResult.exitProcess 5) := by decide

/-- Helper: the scan of `already_contains` succeeds exactly when some staged
extension has the given id. -/
theorem staged_list_contains_id_iff (l : List InventoryExtension) (eid : String) :
    staged_list_contains_id l eid = true ↔ ∃ s ∈ l, s.metadata.id = eid := by
  induction l with
  | nil => simp [staged_list_contains_id]
  | cons hd tl ih =>
    by_cases h : eid = hd.metadata.id
    · simp only [staged_list_contains_id, if_pos h, true_iff]
      exact ⟨hd, List.mem_cons_self hd tl, h.symm⟩
    · simp only [staged_list_contains_id, if_neg h, ih]
      constructor
      · rintro ⟨s, hs, hid⟩
        exact ⟨s, List.mem_cons_of_mem hd hs, hid⟩
      · rintro ⟨s, hs, hid⟩
        rcases List.mem_cons.mp hs with rfl | hs
        · exact absurd hid.symm h
        · exact ⟨s, hs, hid⟩

/-- Counterexample to claim C9: staging a second extension with an
already-staged id returns a `StageConflict` carrying the metadata of the
rejected incoming extension, not the metadata of the extension already
present (they differ in display name and version here). -/
theorem c9_counterexample :
    (mgr_a.stage_extension ext_b).2 = some (StageConflict.new ext_b.metadata) ∧
    ext_b.metadata ≠ ext_a.metadata ∧
    (mgr_a.stage_extension ext_b).2 ≠ some (StageConflict.new ext_a.metadata) ∧
    (mgr_a.stage_extension ext_b).1 = mgr_a := by decide

/-- Claim C9 as amended: if an extension with the same id is already staged,
staging returns a `StageConflict` carrying the metadata of the rejected
incoming extension (which shares its id with the one already present) and
leaves the staged set unchanged; otherwise the extension is appended to the
staged set; and a rejected duplicate does not affect the staging of the
siblings presented after it. -/
theorem c9_stage_conflict_behavior (mgr : ExtensionManager)
    (ext : InventoryExtension) :
    (mgr.already_contains ext = true ↔
      ∃ s ∈ mgr.staged_extensions, s.metadata.id = ext.metadata.id) ∧
    (mgr.already_contains ext = true →
      mgr.stage_extension ext = (mgr, some (StageConflict.new ext.metadata))) ∧
    (mgr.already_contains ext = false →
      mgr.stage_extension ext =
        ({ mgr with staged_extensions := mgr.staged_extensions ++ [ext] },
          none)) ∧
    (∀ rest, mgr.already_contains ext = true →
      mgr.stage_all (ext :: rest) =
        ((mgr.stage_all rest).1,
          StageConflict.new ext.metadata :: (mgr.stage_all rest).2)) := by
  refine ⟨staged_list_contains_id_iff _ _, ?_, ?_, ?_⟩
  · intro h
    simp [ExtensionManager.stage_extension, h]
  · intro h
    simp [ExtensionManager.stage_extension, h]
  · intro rest h
    simp [ExtensionManager.stage_all, ExtensionManager.stage_extension, h]

/-- Witness for the amended C9 at the duplicate-id fixture. -/
theorem c9_stage_conflict_behavior_witness :
    mgr_a.already_contains ext_b = true ∧
    mgr_a.stage_extension ext_b = (mgr_a, some (StageConflict.new ext_b.metadata)) :=
  ⟨by decide, (c9_stage_conflict_behavior mgr_a ext_b).2.1 (by decide)⟩

end TechTriage
